import Mathlib

/-!
Formal model of the GPAlytics grade ingestion and aggregation engine.

The definitions below are shallow embeddings of the Python sources:
  - `src/routers/grades/service.py`   (`GradesService.store_extracted_grades`,
    `GradesService.get_grade_points`)
  - `src/routers/analytics/service.py` (`AnalyticsService.calculate_user_cgpa`,
    `AnalyticsService.get_semester_summary`)
  - `src/routers/grades/ocr.py`       (`OCRService.validate_extracted_grades`,
    `OCRService.sharpen_image`)
  - `app/constants.py`                (`GRADE_POINTS_MAP`)
  - `app/grades/controller.py`        (`process_result_card`, the part of the
    pipeline after AI extraction)

Python floats are modelled as rationals (all grade-point values and the
credit-weighted sums in this domain are exactly representable in binary
floating point only for some inputs; the rational model is the exact
arithmetic the code intends).  Python strings are modelled as Lean `String`s
restricted to ASCII behaviour of `str.strip`/`str.upper`/`str.lower`.
Each persistent-store session is modelled by explicit state passing: a run
receives the committed database and returns the committed database, with
rollback on an error path returning the original state.
-/

/-! ## Python string primitives (ASCII fragment) -/

/-- The characters stripped by Python `str.strip()` with no argument
(ASCII whitespace: space, tab, newline, carriage return, vertical tab,
form feed). -/
def pyWSChar (c : Char) : Bool :=
  c == ' ' || c == '\t' || c == '\n' || c == '\r' || c == '\x0b' || c == '\x0c'

/-- Python `str.strip()` on the underlying character list. -/
def stripList (l : List Char) : List Char :=
  ((l.dropWhile pyWSChar).reverse.dropWhile pyWSChar).reverse

/-- Python `str.strip()`. -/
def pyStrip (s : String) : String := ⟨stripList s.data⟩

/-- Python `str.upper()` on one character (ASCII letters). -/
def upChar (c : Char) : Char :=
  if 97 ≤ c.toNat ∧ c.toNat ≤ 122 then Char.ofNat (c.toNat - 32) else c

/-- Python `str.upper()` (ASCII fragment). -/
def pyUpper (s : String) : String := ⟨s.data.map upChar⟩

/-- Python `str.lower()` on one character (ASCII letters). -/
def lowChar (c : Char) : Char :=
  if 65 ≤ c.toNat ∧ c.toNat ≤ 90 then Char.ofNat (c.toNat + 32) else c

/-- Python `str.lower()` (ASCII fragment). -/
def pyLower (s : String) : String := ⟨s.data.map lowChar⟩

/-- Python `str.isdigit()` (ASCII fragment): non-empty and all decimal
digits. -/
def pyIsDigit (s : String) : Bool :=
  !s.data.isEmpty && s.data.all Char.isDigit

/-- Numeric value of a list of decimal digits. -/
def digitsVal (l : List Char) : Nat :=
  l.foldl (fun a c => a * 10 + (c.toNat - 48)) 0

/-- Python `int(s)` on a string: surrounding whitespace is stripped, one
optional sign is allowed, and the rest must be decimal digits; `none`
models the `ValueError` raised otherwise.  (Underscore digit grouping is
outside the modelled domain.) -/
def pyIntOfString (s : String) : Option Int :=
  match stripList s.data with
  | [] => none
  | '+' :: ds =>
    if !ds.isEmpty && ds.all Char.isDigit then some (digitsVal ds : Int) else none
  | '-' :: ds =>
    if !ds.isEmpty && ds.all Char.isDigit then some (-(digitsVal ds : Int)) else none
  | ds =>
    if ds.all Char.isDigit then some (digitsVal ds : Int) else none

/-- Python `needle in haystack` on strings. -/
def strContains (haystack needle : String) : Bool :=
  (haystack.splitOn needle).length > 1

/-! ## Rounding

Python `round(x, 2)` rounds to two decimal places, ties to even
(banker's rounding).  On the rational model this is exact. -/

/-- Round a rational to the nearest integer, ties to even. -/
def roundHalfEven (x : ℚ) : ℤ :=
  let f := x.floor
  let r : ℚ := x - (f : ℚ)
  if r < 1/2 then f
  else if 1/2 < r then f + 1
  else if f % 2 = 0 then f else f + 1

/-- Python `round(x, 2)`. -/
def pyRound2 (x : ℚ) : ℚ := (roundHalfEven (x * 100) : ℚ) / 100

/-! ## Grade-point table

Translation of `GRADE_POINTS_MAP` from `app/constants.py` and
`GradesService.get_grade_points` from `src/routers/grades/service.py`. -/

/-- The static letter-grade-to-points table `GRADE_POINTS_MAP`. -/
def GRADE_POINTS_MAP : List (String × ℚ) :=
  [("O", 10), ("A+", 9), ("A", 8), ("B+", 7), ("B", 6),
   ("C", 5), ("D", 4), ("F", 0), ("U", 0), ("AB", 0)]

/-- `GradesService.get_grade_points`: `GRADE_POINTS_MAP.get(grade.upper(), 0.0)`. -/
def get_grade_points (grade : String) : ℚ :=
  (GRADE_POINTS_MAP.lookup (pyUpper grade)).getD 0

/-! ## Extraction payload model

A JSON scalar as it appears in the extraction payload after `json.loads`:
a string, an integer, a non-integral number, or null.  (Lists/objects in
scalar positions are outside the modelled domain; the code paths below
never receive them from a schema-validated payload.) -/

/-- One scalar JSON value in the extraction payload. -/
inductive JVal where
  | jstr (s : String)
  | jint (n : Int)
  | jnum (q : ℚ)
  | jnull
deriving Repr, DecidableEq

/-- Python truthiness of a payload scalar (`if v:`). -/
def JVal.truthy : JVal → Bool
  | .jstr s => !(s == "")
  | .jint n => !(n == 0)
  | .jnum q => if q = 0 then false else true
  | .jnull => false

/-- Python `str(v).isdigit()` followed by `int(v)` is only ever taken on
values whose `str` is all digits; for an `int` that holds exactly for the
nonnegative integers (a negative integer prints a sign character), and
for a float it never holds (the printed form always contains `.`, `e`,
`inf` or `nan`). -/
def jvalDigitInt : JVal → Option Int
  | .jstr s => if pyIsDigit s then some (digitsVal (stripList s.data) : Int) else none
  | .jint n => if 0 ≤ n then some n else none
  | .jnum _ => none
  | .jnull => none

/-- Truncation toward zero, as Python `int()` applied to a float. -/
def ratTrunc (q : ℚ) : Int := if q < 0 then -((-q).floor) else q.floor

/-- Python `int(v)` for the scalar values that can reach the credits
coercion; `none` models the `ValueError` raised on a non-numeric string.
(`int(None)` raises `TypeError`, but `None` is falsy so that call is
unreachable in `store_extracted_grades`; `none` there is a dead branch.) -/
def pyIntOfVal : JVal → Option Int
  | .jstr s => pyIntOfString s
  | .jint n => some n
  | .jnum q => some (ratTrunc q)
  | .jnull => none

/-- Python `v.strip()` is only legal on a string; `none` models the
`AttributeError` raised on any other payload scalar. -/
def pyStrVal : JVal → Option String
  | .jstr s => some s
  | _ => none

/-- The `student_info` object; only its `semester` key is ever read by the
engine (`name` and `registration_number` are not consumed). -/
structure StudentInfo where
  semester : Option JVal
deriving Repr, DecidableEq

/-- One entry of the `subjects` array; each field is `none` when the key
is absent. -/
structure RawSubject where
  subject_code : Option JVal
  subject_name : Option JVal
  credits : Option JVal
  grade : Option JVal
deriving Repr, DecidableEq

/-- The value under the top-level `subjects` key: either an actual list or
some non-list value (rejected by the schema validator). -/
inductive SubjectsVal where
  | lst (subs : List RawSubject)
  | nonList
deriving Repr, DecidableEq

/-- A parsed extraction payload; each top-level field is `none`/`false`
when the key is absent.  `semester_summary` is validated for presence
only and never consumed numerically, so presence is all the model keeps. -/
structure ExtractedData where
  student_info : Option StudentInfo
  subjects : Option SubjectsVal
  semester_summary : Bool
deriving Repr, DecidableEq

/-- `extracted_data.get("subjects", [])`, specialised to the list case
(the non-list case is rejected by the schema validator before the store
is ever called). -/
def subjectsList (d : ExtractedData) : List RawSubject :=
  match d.subjects with
  | some (.lst l) => l
  | _ => []

/-! ## Persisted entities and the store

Translation of the `Grade` and `GradeUpload` entities from
`src/shared/entities.py` (the opaque `id`/`created_at` columns carry no
logic and are omitted) and of the committed database state.  A session is
one pipeline run: staged rows become visible to same-session queries
(SQLAlchemy autoflush) and reach the committed state only on `commit`;
`rollback` discards them. -/

/-- One persisted course result (entity `Grade`). -/
structure Grade where
  user_id : String
  course_name : String
  course_code : String
  credits : Int
  grade : String
  semester : Int
  gpa_points : ℚ
deriving Repr, DecidableEq

/-- One ingestion attempt (entity `GradeUpload`). -/
structure GradeUpload where
  user_id : String
  filename : String
  status : String
deriving Repr, DecidableEq

/-- The committed persistent store. -/
structure DB where
  grades : List Grade
  uploads : List GradeUpload
deriving Repr, DecidableEq

/-- The typed error raised by the storage layer
(`DatabaseError` from `app/core/exceptions.py`, with the sub-reasons the
service's `except` branch distinguishes). -/
inductive DatabaseError where
  | noSubjects
  | duplicateData
  | foreignKeyViolation
  | checkConstraintViolation
  | storageFailed
deriving Repr, DecidableEq

/-- The error classification of `store_extracted_grades`'s generic
`except` branch: the lower-cased message is searched for
`unique constraint`/`duplicate`, then `foreign key`, then
`check constraint`; anything else is a generic storage failure. -/
def classifyStorageError (msg : String) : DatabaseError :=
  let m := pyLower msg
  if strContains m "unique constraint" || strContains m "duplicate" then .duplicateData
  else if strContains m "foreign key" then .foreignKeyViolation
  else if strContains m "check constraint" then .checkConstraintViolation
  else .storageFailed

/-! ## Grade normalizer (the per-subject body of `store_extracted_grades`) -/

/-- One entry of the `stored_grades` result list and of the analytics
subject dictionaries (keys `course_code`, `course_name`, `credits`,
`grade`, `grade_points`). -/
structure SubjectEntry where
  course_code : String
  course_name : String
  credits : Int
  grade : String
  grade_points : ℚ
deriving Repr, DecidableEq

/-- The `semester` resolution block of `store_extracted_grades`:
`student_info.get("semester")`, Python-truthiness test, `str(...).isdigit()`
gate before `int(...)` with fallback 1, then reset to 1 outside [1, 12]. -/
def resolveSemester (si : Option StudentInfo) : Int :=
  let sem := (si.getD ⟨none⟩).semester
  let s : Int :=
    match sem with
    | none => 1
    | some v =>
      if v.truthy then (jvalDigitInt v).getD 1 else 1
  if s < 1 || s > 12 then 1 else s

/-- The credits coercion block: `subject_data.get("credits", 0)`, then
`int(credits) if credits else 0` under `except ValueError`, then the
default 3 outside [1, 6]. -/
def coerceCredits (v : Option JVal) : Int :=
  let c := v.getD (.jint 0)
  match (if c.truthy then pyIntOfVal c else some 0) with
  | none => 3
  | some n => if n < 1 || n > 6 then 3 else n

/-- The per-subject normalization of `store_extracted_grades`: trim code
and name, normalize the grade (falsy raw grade is replaced by the default
`"F"` before `strip().upper()` is ever called), skip on empty code/name,
skip on empty or `"NONE"` grade, coerce credits, and look up grade
points.  `none` means the subject is skipped (`continue`), which is also
where the per-subject `except Exception` lands a non-string field. -/
def normalizeSubject (sub : RawSubject) : Option SubjectEntry :=
  match pyStrVal (sub.subject_code.getD (.jstr "")),
        pyStrVal (sub.subject_name.getD (.jstr "")) with
  | some code0, some name0 =>
    let code := pyStrip code0
    let name := pyStrip name0
    let gradeRaw := sub.grade.getD (.jstr "F")
    match (if gradeRaw.truthy
           then Option.map (fun s => pyUpper (pyStrip s)) (pyStrVal gradeRaw)
           else some "F") with
    | some grade =>
      if code == "" || name == "" then none
      else if grade == "" || grade == "NONE" then none
      else some { course_code := code, course_name := name,
                  credits := coerceCredits sub.credits, grade,
                  grade_points := get_grade_points grade }
    | none => none
  | _, _ => none

/-- The duplicate check: the session query for an existing `Grade` with
the same `(user_id, course_code, semester)`. -/
def hasGradeFor (gs : List Grade) (user code : String) (sem : Int) : Bool :=
  gs.any fun g => g.user_id == user && g.course_code == code && g.semester == sem

/-- A normalized subject as the `Grade` row the loop stages. -/
def toGradeRow (user : String) (sem : Int) (ns : SubjectEntry) : Grade :=
  { user_id := user, course_name := ns.course_name, course_code := ns.course_code,
    credits := ns.credits, grade := ns.grade, semester := sem,
    gpa_points := ns.grade_points }

/-- The subject loop of `store_extracted_grades`: normalize each subject,
skip it when normalization skips, skip it when the duplicate query finds
an existing row, otherwise stage a new `Grade` row.  `visible` is what
the session query can see: the committed rows plus the rows staged so far
in this run (the session autoflushes pending rows before each query). -/
def stageLoop (user : String) (sem : Int) (visible : List Grade) :
    List RawSubject → List Grade
  | [] => []
  | sub :: rest =>
    match normalizeSubject sub with
    | none => stageLoop user sem visible rest
    | some ns =>
      if hasGradeFor visible user ns.course_code sem then
        stageLoop user sem visible rest
      else
        let g := toGradeRow user sem ns
        g :: stageLoop user sem (visible ++ [g]) rest

/-- The running `total_credits` accumulator over the staged rows. -/
def stagedCredits (l : List Grade) : Int := (l.map (fun g => g.credits)).sum

/-- The running `total_grade_points` accumulator over the staged rows
(`grade_points * credits` per staged subject). -/
def stagedPoints (l : List Grade) : ℚ :=
  (l.map (fun g => g.gpa_points * (g.credits : ℚ))).sum

/-- A staged `Grade` row as the dictionary appended to `stored_grades`. -/
def toSubjectEntry (g : Grade) : SubjectEntry :=
  { course_code := g.course_code, course_name := g.course_name,
    credits := g.credits, grade := g.grade, grade_points := g.gpa_points }

/-- The dictionary returned by `store_extracted_grades`.  The success
branch carries no `status`/`duplicate_count` keys, the all-duplicates
branch carries both; `Option` models key presence. -/
structure StoreResult where
  user_id : String
  semester : Int
  subjects_stored : Nat
  total_credits : Int
  calculated_sgpa : ℚ
  grades : List SubjectEntry
  duplicate_count : Option Nat
  status : Option String
deriving Repr, DecidableEq

/-- `GradesService.store_extracted_grades`.  `commitFail` is the storage
fault model: `some msg` means the storage layer raises with message `msg`
at the transaction's write point (the `commit`), landing in the service's
generic `except` branch, which rolls the session back and raises the
classified `DatabaseError`; `none` means storage succeeds.  The empty
`subjects` guard raises `DatabaseError` directly and is rolled back the
same way.  The returned `DB` is the committed state after the run. -/
def store_extracted_grades (commitFail : Option String) (db : DB)
    (user_id : String) (extracted_data : ExtractedData)
    (upload_filename : String) : Except DatabaseError StoreResult × DB :=
  let upload : GradeUpload :=
    { user_id := user_id, filename := upload_filename, status := "processing" }
  let sem := resolveSemester extracted_data.student_info
  let subjects := subjectsList extracted_data
  if subjects.isEmpty then
    (.error .noSubjects, db)
  else
    let staged := stageLoop user_id sem db.grades subjects
    match commitFail with
    | some msg => (.error (classifyStorageError msg), db)
    | none =>
      if staged.isEmpty then
        (.ok { user_id := user_id, semester := sem, subjects_stored := 0,
               total_credits := 0, calculated_sgpa := 0, grades := [],
               duplicate_count := some subjects.length,
               status := some "all_duplicates" },
         { grades := db.grades,
           uploads := db.uploads ++ [{ upload with status := "all_duplicates" }] })
      else
        let tc := stagedCredits staged
        let tp := stagedPoints staged
        let sgpa : ℚ := if tc > 0 then tp / (tc : ℚ) else 0
        (.ok { user_id := user_id, semester := sem,
               subjects_stored := staged.length, total_credits := tc,
               calculated_sgpa := pyRound2 sgpa,
               grades := staged.map toSubjectEntry,
               duplicate_count := none, status := none },
         { grades := db.grades ++ staged,
           uploads := db.uploads ++ [{ upload with status := "completed" }] })

/-! ## Aggregation engine

Translation of `AnalyticsService.calculate_user_cgpa` and
`AnalyticsService.get_semester_summary` from
`src/routers/analytics/service.py`.  The Python `semester_data` dict is
modelled as an association list with dict semantics: an existing key is
updated in place, a new key is appended (insertion order). -/

/-- A `Grade` row as the subject dictionary the analytics loop appends. -/
def toAnalyticsEntry (g : Grade) : SubjectEntry :=
  { course_code := g.course_code, course_name := g.course_name,
    credits := g.credits, grade := g.grade, grade_points := g.gpa_points }

/-- The per-semester accumulator held in `semester_data[semester]`. -/
structure SemAcc where
  subjects : List SubjectEntry
  credits : Int
  grade_points : ℚ
deriving Repr, DecidableEq

/-- Update a dict entry in place, or append a fresh one initialised with
`f` applied to the empty accumulator (Python
`if semester not in semester_data: semester_data[semester] = init` then
in-place update). -/
def bumpSem : List (Int × SemAcc) → Int → (SemAcc → SemAcc) → List (Int × SemAcc)
  | [], k, f => [(k, f ⟨[], 0, 0⟩)]
  | (k', a) :: rest, k, f =>
    if k' == k then (k', f a) :: rest else (k', a) :: bumpSem rest k f

/-- The body of the analytics loop for one grade row: append the subject
dictionary and add its credits and weighted grade points. -/
def addGradeAcc (g : Grade) (a : SemAcc) : SemAcc :=
  { subjects := a.subjects ++ [toAnalyticsEntry g],
    credits := a.credits + g.credits,
    grade_points := a.grade_points + g.gpa_points * (g.credits : ℚ) }

/-- The `semester_data` dict after the loop over all of the owner's
grade rows. -/
def buildSemData (gs : List Grade) : List (Int × SemAcc) :=
  gs.foldl (fun m g => bumpSem m g.semester (addGradeAcc g)) []

/-- Python `sorted` on a list of integers (ascending). -/
def sortInts (l : List Int) : List Int := l.insertionSort (· ≤ ·)

/-- One entry of the `semester_breakdown` list. -/
structure SemesterBreakdown where
  semester : Int
  subjects_count : Nat
  total_credits : Int
  sgpa : ℚ
  subjects : List SubjectEntry
deriving Repr, DecidableEq

/-- The dictionary returned by `calculate_user_cgpa`. -/
structure CgpaSummary where
  user_id : String
  total_subjects : Nat
  total_credits : Int
  cgpa : ℚ
  semesters_completed : Nat
  semester_breakdown : List SemesterBreakdown
deriving Repr, DecidableEq

/-- The running `total_credits` accumulator of the analytics loop. -/
def loopCredits (gs : List Grade) : Int :=
  gs.foldl (fun t g => t + g.credits) 0

/-- The running `total_grade_points` accumulator of the analytics loop. -/
def loopPoints (gs : List Grade) : ℚ :=
  gs.foldl (fun t g => t + g.gpa_points * (g.credits : ℚ)) 0

/-- `AnalyticsService.calculate_user_cgpa`: fetch the owner's grade rows,
build the per-semester dict, emit the breakdown over the sorted keys, and
compute the overall CGPA; an owner with no rows gets the all-zero
summary. -/
def calculate_user_cgpa (db : DB) (user_id : String) : CgpaSummary :=
  let all_grades := db.grades.filter (fun g => g.user_id == user_id)
  if all_grades.isEmpty then
    { user_id := user_id, total_subjects := 0, total_credits := 0, cgpa := 0,
      semesters_completed := 0, semester_breakdown := [] }
  else
    let semData := buildSemData all_grades
    let total_credits := loopCredits all_grades
    let total_grade_points := loopPoints all_grades
    let breakdown := (sortInts (semData.map Prod.fst)).map fun s =>
      let a := (semData.lookup s).getD ⟨[], 0, 0⟩
      { semester := s, subjects_count := a.subjects.length,
        total_credits := a.credits,
        sgpa := pyRound2 (if a.credits > 0 then a.grade_points / (a.credits : ℚ) else 0),
        subjects := a.subjects }
    let cgpa : ℚ :=
      if total_credits > 0 then total_grade_points / (total_credits : ℚ) else 0
    { user_id := user_id, total_subjects := all_grades.length,
      total_credits := total_credits, cgpa := pyRound2 cgpa,
      semesters_completed := semData.length, semester_breakdown := breakdown }

/-- The dictionary returned by `get_semester_summary`. -/
structure SemesterSummaryResult where
  user_id : String
  semester : Int
  subjects_count : Nat
  total_credits : Int
  sgpa : ℚ
  subjects : List SubjectEntry
deriving Repr, DecidableEq

/-- `AnalyticsService.get_semester_summary`: the same per-semester
computation restricted to one semester; `none` when the owner has no row
in that semester. -/
def get_semester_summary (db : DB) (user_id : String) (semester : Int) :
    Option SemesterSummaryResult :=
  let grades := db.grades.filter
    (fun g => g.user_id == user_id && g.semester == semester)
  if grades.isEmpty then none
  else
    let total_credits := (grades.map (fun g => g.credits)).sum
    let total_grade_points := (grades.map (fun g => g.gpa_points * (g.credits : ℚ))).sum
    let sgpa : ℚ :=
      if total_credits > 0 then total_grade_points / (total_credits : ℚ) else 0
    some { user_id := user_id, semester := semester,
           subjects_count := grades.length, total_credits := total_credits,
           sgpa := pyRound2 sgpa, subjects := grades.map toAnalyticsEntry }

/-! ## Specification-side aggregation (for the refinement claim C2)

These definitions follow the spec's words for `computeCGPA` (section 4.7
of the spec): group the owner's rows by `semester`, per group
`sgpa = Σ(grade_points·credits)/Σ(credits)` with a 0.0 guard, rounded to
2 decimals, groups listed in ascending semester order, overall `cgpa`
the credit-weighted mean over all rows, all-zero summary on no grades. -/

/-- Spec: the owner's rows of one semester, in store order. -/
def specSemGroup (gs : List Grade) (s : Int) : List Grade :=
  gs.filter (fun g => g.semester == s)

/-- Spec: `Σ credits` over a group of rows. -/
def specCredits (gs : List Grade) : Int := (gs.map (fun g => g.credits)).sum

/-- Spec: `Σ (grade_points · credits)` over a group of rows. -/
def specPoints (gs : List Grade) : ℚ :=
  (gs.map (fun g => g.gpa_points * (g.credits : ℚ))).sum

/-- Spec: a group's SGPA with the zero-credit guard, rounded to 2
decimals. -/
def specSgpa (gs : List Grade) : ℚ :=
  pyRound2 (if specCredits gs > 0 then specPoints gs / (specCredits gs : ℚ) else 0)

/-- Spec: the distinct semesters of the owner's rows, ascending. -/
def specSemesters (gs : List Grade) : List Int :=
  sortInts (gs.map (fun g => g.semester)).dedup

/-- Spec-side `computeCGPA(owner_id)` written from the spec's words, to be
compared with the translated `calculate_user_cgpa`. -/
def computeCGPASpec (db : DB) (owner_id : String) : CgpaSummary :=
  let gs := db.grades.filter (fun g => g.user_id == owner_id)
  if gs.isEmpty then
    { user_id := owner_id, total_subjects := 0, total_credits := 0, cgpa := 0,
      semesters_completed := 0, semester_breakdown := [] }
  else
    { user_id := owner_id, total_subjects := gs.length,
      total_credits := specCredits gs,
      cgpa := pyRound2 (if specCredits gs > 0 then specPoints gs / (specCredits gs : ℚ) else 0),
      semesters_completed := (specSemesters gs).length,
      semester_breakdown := (specSemesters gs).map fun s =>
        let grp := specSemGroup gs s
        { semester := s, subjects_count := grp.length,
          total_credits := specCredits grp, sgpa := specSgpa grp,
          subjects := grp.map toAnalyticsEntry } }

/-! ## Schema validator and the post-extraction pipeline -/

/-- The per-subject key/shape check of `validate_extracted_grades`. -/
def subjectShapeOk (s : RawSubject) : Bool :=
  (s.subject_code.isSome && s.subject_name.isSome &&
   s.credits.isSome && s.grade.isSome) &&
  (match s.credits with
   | some (.jint _) => true
   | some (.jnum _) => true
   | _ => false)

/-- `OCRService.validate_extracted_grades`: the three top-level keys are
present, `subjects` is a non-empty list, every subject has the four
required keys, and its `credits` is numeric (`isinstance(credits,
(int, float))`). -/
def validate_extracted_grades (data : ExtractedData) : Bool :=
  (data.student_info.isSome && data.subjects.isSome && data.semester_summary) &&
  (match data.subjects with
   | some (.lst subjects) => !subjects.isEmpty && subjects.all subjectShapeOk
   | _ => false)

/-- The outcome the controller maps a run to (entity
`UploadStatusResponse` status values, plus the propagated storage
error). -/
inductive PipelineOutcome where
  | processing_failed
  | duplicate_detected (r : StoreResult)
  | completed (r : StoreResult)
  | storage_error (e : DatabaseError)
deriving Repr, DecidableEq

/-- The post-extraction part of `process_result_card`
(`app/grades/controller.py`): if the schema validator rejects the
extracted payload the controller returns a `processing_failed` response
at once and the transaction manager is never invoked; otherwise the
payload is handed to `store_extracted_grades` and the result mapped to
the response status. -/
def process_result_card_after_extraction (commitFail : Option String)
    (db : DB) (user_id : String) (data : ExtractedData) (filename : String) :
    PipelineOutcome × DB :=
  if !(validate_extracted_grades data) then
    (.processing_failed, db)
  else
    match store_extracted_grades commitFail db user_id data filename with
    | (.ok r, db') =>
      if r.status == some "all_duplicates" then (.duplicate_detected r, db')
      else (.completed r, db')
    | (.error e, db') => (.storage_error e, db')

/-! ## Image preprocessor

`OCRService.sharpen_image` wraps the whole PIL pipeline (open, mode
conversion to RGB, sharpness 2.0, contrast 1.5, JPEG re-encode) in a
`try` whose `except` returns the input bytes unchanged.  The individual
PIL stages are effectful library calls; they are modelled as oracle
functions over an abstract image type, `none` modelling a raised
exception. -/

/-- The body of the `try` block of `sharpen_image`: open the bytes,
ensure RGB mode, sharpen, boost contrast, re-encode; any stage may
fail. -/
def sharpenChain {Img : Type} (openImage : List Nat → Option Img)
    (ensureRGB : Img → Option Img) (sharpness : Img → Option Img)
    (contrast : Img → Option Img) (encodeJPEG : Img → Option (List Nat))
    (image_bytes : List Nat) : Option (List Nat) := do
  let i ← openImage image_bytes
  let i ← ensureRGB i
  let i ← sharpness i
  let i ← contrast i
  encodeJPEG i

/-- `OCRService.sharpen_image`: the `try`/`except` around the PIL chain;
on any internal failure the original bytes are returned unchanged. -/
def sharpen_image {Img : Type} (openImage : List Nat → Option Img)
    (ensureRGB : Img → Option Img) (sharpness : Img → Option Img)
    (contrast : Img → Option Img) (encodeJPEG : Img → Option (List Nat))
    (image_bytes : List Nat) : List Nat :=
  match sharpenChain openImage ensureRGB sharpness contrast encodeJPEG image_bytes with
  | some out => out
  | none => image_bytes

/-! ## Helper lemmas: the string primitives -/

theorem upChar_upChar (c : Char) : upChar (upChar c) = upChar c := by
  unfold upChar
  split
  · rename_i hr
    obtain ⟨k, hk, he⟩ : ∃ k, k ≤ 25 ∧ c.toNat = 97 + k :=
      ⟨c.toNat - 97, by omega, by omega⟩
    rw [he]
    interval_cases k <;> decide
  · rfl

theorem pyWSChar_upChar (c : Char) (h : pyWSChar c = false) :
    pyWSChar (upChar c) = false := by
  unfold upChar
  split
  · rename_i hr
    obtain ⟨k, hk, he⟩ : ∃ k, k ≤ 25 ∧ c.toNat = 97 + k :=
      ⟨c.toNat - 97, by omega, by omega⟩
    rw [he]
    interval_cases k <;> decide
  · exact h

theorem pyUpper_pyUpper (s : String) : pyUpper (pyUpper s) = pyUpper s := by
  apply String.ext
  show (s.data.map upChar).map upChar = s.data.map upChar
  rw [List.map_map]
  exact List.map_congr_left fun a _ => upChar_upChar a

theorem dropWhile_head_false {α : Type} (p : α → Bool) (l : List α) :
    ∀ c ∈ (l.dropWhile p).head?, p c = false := by
  induction l with
  | nil => simp
  | cons a l ih =>
    rw [List.dropWhile_cons]
    split
    · exact ih
    · rename_i ha
      intro c hc
      rw [List.head?_cons, Option.mem_def, Option.some.injEq] at hc
      subst hc
      exact Bool.not_eq_true _ ▸ Bool.of_not_eq_true ha

theorem dropWhile_eq_self_of_head {α : Type} (p : α → Bool) (l : List α)
    (h : ∀ c ∈ l.head?, p c = false) : l.dropWhile p = l := by
  cases l with
  | nil => rfl
  | cons a l =>
    have ha : p a = false := h a (by simp)
    simp [List.dropWhile_cons, ha]

theorem stripList_head_false (l : List Char) :
    ∀ c ∈ (stripList l).head?, pyWSChar c = false := by
  intro c hc
  unfold stripList at hc
  rw [List.head?_reverse] at hc
  obtain ⟨u, hu⟩ :
      ∃ u, u ++ List.dropWhile pyWSChar (List.dropWhile pyWSChar l).reverse =
        (List.dropWhile pyWSChar l).reverse :=
    List.dropWhile_suffix pyWSChar
  rw [Option.mem_def] at hc
  have hhd : (List.dropWhile pyWSChar l).head? = some c := by
    rw [← List.getLast?_reverse, ← hu, List.getLast?_append, hc]
    rfl
  exact dropWhile_head_false pyWSChar l c (Option.mem_def.mpr hhd)

theorem stripList_revhead_false (l : List Char) :
    ∀ c ∈ (stripList l).reverse.head?, pyWSChar c = false := by
  intro c hc
  unfold stripList at hc
  rw [List.reverse_reverse] at hc
  exact dropWhile_head_false pyWSChar _ c hc

theorem stripList_eq_self (t : List Char)
    (h1 : ∀ c ∈ t.head?, pyWSChar c = false)
    (h2 : ∀ c ∈ t.reverse.head?, pyWSChar c = false) :
    stripList t = t := by
  unfold stripList
  rw [dropWhile_eq_self_of_head _ _ h1, dropWhile_eq_self_of_head _ _ h2,
    List.reverse_reverse]

theorem stripList_stripList (l : List Char) :
    stripList (stripList l) = stripList l :=
  stripList_eq_self _ (stripList_head_false l) (stripList_revhead_false l)

theorem stripList_map_upChar (l : List Char) :
    stripList ((stripList l).map upChar) = (stripList l).map upChar := by
  apply stripList_eq_self
  · intro c hc
    rw [List.head?_map, Option.mem_def, Option.map_eq_some'] at hc
    obtain ⟨a, ha, rfl⟩ := hc
    exact pyWSChar_upChar a (stripList_head_false l a (Option.mem_def.mpr ha))
  · intro c hc
    rw [← List.map_reverse, List.head?_map, Option.mem_def, Option.map_eq_some'] at hc
    obtain ⟨a, ha, rfl⟩ := hc
    exact pyWSChar_upChar a (stripList_revhead_false l a (Option.mem_def.mpr ha))

theorem pyStrip_pyStrip (s : String) : pyStrip (pyStrip s) = pyStrip s := by
  apply String.ext
  show stripList (stripList s.data) = stripList s.data
  exact stripList_stripList s.data

theorem pyStrip_pyUpper_pyStrip (s : String) :
    pyStrip (pyUpper (pyStrip s)) = pyUpper (pyStrip s) := by
  apply String.ext
  show stripList ((stripList s.data).map upChar) = (stripList s.data).map upChar
  exact stripList_map_upChar s.data

theorem lookup_mem_values {α β : Type} [BEq α] [LawfulBEq α]
    (ps : List (α × β)) (k : α) (v : β) (h : ps.lookup k = some v) :
    v ∈ ps.map Prod.snd := by
  induction ps with
  | nil => simp [List.lookup] at h
  | cons p ps ih =>
    rw [List.lookup] at h
    by_cases hk : k == p.1
    · rw [hk] at h
      simp at h
      subst h
      exact List.mem_cons_self _ _
    · rw [Bool.not_eq_true] at hk
      rw [hk] at h
      exact List.mem_cons_of_mem _ (ih h)

theorem get_grade_points_mem (g : String) :
    get_grade_points g ∈ GRADE_POINTS_MAP.map Prod.snd := by
  unfold get_grade_points
  cases h : GRADE_POINTS_MAP.lookup (pyUpper g) with
  | none => simp [GRADE_POINTS_MAP]
  | some v =>
    simpa using lookup_mem_values GRADE_POINTS_MAP (pyUpper g) v h

theorem get_grade_points_bounds (g : String) :
    0 ≤ get_grade_points g ∧ get_grade_points g ≤ 10 := by
  have h := get_grade_points_mem g
  simp only [GRADE_POINTS_MAP, List.map_cons, List.map_nil, List.mem_cons,
    List.not_mem_nil, or_false] at h
  rcases h with h | h | h | h | h | h | h | h | h | h <;> rw [h] <;> norm_num

/-! ## Helper lemmas: normalization and staging -/

theorem ite_clamp16 (x : Int) :
    1 ≤ (if x < 1 || x > 6 then 3 else x) ∧ (if x < 1 || x > 6 then 3 else x) ≤ 6 := by
  split
  · norm_num
  · rename_i hb
    simp only [Bool.or_eq_true, decide_eq_true_eq, not_or] at hb
    omega

theorem ite_clamp112 (x : Int) :
    1 ≤ (if x < 1 || x > 12 then 1 else x) ∧ (if x < 1 || x > 12 then 1 else x) ≤ 12 := by
  split
  · norm_num
  · rename_i hb
    simp only [Bool.or_eq_true, decide_eq_true_eq, not_or] at hb
    omega

theorem coerceCredits_range (v : Option JVal) :
    1 ≤ coerceCredits v ∧ coerceCredits v ≤ 6 := by
  simp only [coerceCredits]
  rcases hE : (if (v.getD (.jint 0)).truthy then pyIntOfVal (v.getD (.jint 0)) else some 0)
    with _ | n
  · show (1 : ℤ) ≤ 3 ∧ (3 : ℤ) ≤ 6
    norm_num
  · show 1 ≤ (if n < 1 || n > 6 then 3 else n) ∧ (if n < 1 || n > 6 then 3 else n) ≤ 6
    exact ite_clamp16 n

theorem resolveSemester_range (si : Option StudentInfo) :
    1 ≤ resolveSemester si ∧ resolveSemester si ≤ 12 := by
  simp only [resolveSemester]
  exact ite_clamp112 _

theorem grade_provenance (gradeRaw : JVal) (grade : String)
    (hg : (if gradeRaw.truthy
           then Option.map (fun s => pyUpper (pyStrip s)) (pyStrVal gradeRaw)
           else some "F") = some grade) :
    grade = "F" ∨ ∃ s, grade = pyUpper (pyStrip s) := by
  split at hg
  · cases gradeRaw <;> simp [pyStrVal] at hg
    right
    exact ⟨_, hg.symm⟩
  · simp at hg
    left
    exact hg.symm

theorem grade_fixpoint {grade : String}
    (h : grade = "F" ∨ ∃ s, grade = pyUpper (pyStrip s)) :
    pyStrip grade = grade ∧ pyUpper grade = grade := by
  rcases h with rfl | ⟨s, rfl⟩
  · exact ⟨by decide, by decide⟩
  · exact ⟨pyStrip_pyUpper_pyStrip s, pyUpper_pyUpper (pyStrip s)⟩

theorem normalizeSubject_some {sub : RawSubject} {ns : SubjectEntry}
    (h : normalizeSubject sub = some ns) :
    ns.grade ≠ "" ∧ ns.grade ≠ "NONE" ∧
    ns.credits = coerceCredits sub.credits ∧
    ns.grade_points = get_grade_points ns.grade ∧
    pyStrip ns.grade = ns.grade ∧ pyUpper ns.grade = ns.grade := by
  unfold normalizeSubject at h
  rcases h1 : pyStrVal (sub.subject_code.getD (.jstr "")) with _ | code0 <;> rw [h1] at h
  · exact absurd h (by simp)
  rcases h2 : pyStrVal (sub.subject_name.getD (.jstr "")) with _ | name0 <;> rw [h2] at h
  · exact absurd h (by simp)
  simp only [] at h
  split at h
  case h_2 => exact absurd h (by simp)
  rename_i grade hg
  have hprov := grade_provenance _ _ hg
  split at h
  · exact absurd h (by simp)
  split at h
  · exact absurd h (by simp)
  rename_i hcn hgr
  simp only [Bool.or_eq_true, beq_iff_eq, not_or] at hgr
  injection h with hns
  subst hns
  obtain ⟨hfix1, hfix2⟩ := grade_fixpoint hprov
  exact ⟨hgr.1, hgr.2, rfl, rfl, hfix1, hfix2⟩

theorem hasGradeFor_append (l l' : List Grade) (u c : String) (s : Int) :
    hasGradeFor (l ++ l') u c s = (hasGradeFor l u c s || hasGradeFor l' u c s) :=
  List.any_append

theorem hasGradeFor_of_mem {gs : List Grade} {g : Grade} {u c : String} {s : Int}
    (hm : g ∈ gs) (hu : g.user_id = u) (hc : g.course_code = c) (hs : g.semester = s) :
    hasGradeFor gs u c s = true := by
  unfold hasGradeFor
  rw [List.any_eq_true]
  exact ⟨g, hm, by simp [hu, hc, hs]⟩

theorem stageLoop_mem {user : String} {sem : Int} :
    ∀ (subs : List RawSubject) (visible : List Grade) (g : Grade),
      g ∈ stageLoop user sem visible subs →
      ∃ sub ∈ subs, ∃ ns, normalizeSubject sub = some ns ∧ g = toGradeRow user sem ns := by
  intro subs
  induction subs with
  | nil => intro visible g hg; simp [stageLoop] at hg
  | cons sub0 rest ih =>
    intro visible g hg
    rw [stageLoop] at hg
    rcases hn : normalizeSubject sub0 with _ | ns0 <;> simp only [hn] at hg
    · obtain ⟨s, hs, hrest⟩ := ih visible g hg
      exact ⟨s, List.mem_cons_of_mem _ hs, hrest⟩
    · split at hg
      · obtain ⟨s, hs, hrest⟩ := ih visible g hg
        exact ⟨s, List.mem_cons_of_mem _ hs, hrest⟩
      · rcases List.mem_cons.mp hg with rfl | hg'
        · exact ⟨sub0, List.mem_cons_self _ _, ns0, hn, rfl⟩
        · obtain ⟨s, hs, hrest⟩ := ih _ g hg'
          exact ⟨s, List.mem_cons_of_mem _ hs, hrest⟩

theorem stageLoop_covers {user : String} {sem : Int} :
    ∀ (subs : List RawSubject) (visible : List Grade) (sub : RawSubject)
      (ns : SubjectEntry), sub ∈ subs → normalizeSubject sub = some ns →
      hasGradeFor (visible ++ stageLoop user sem visible subs) user ns.course_code sem
        = true := by
  intro subs
  induction subs with
  | nil => intro _ _ _ h _; simp at h
  | cons sub0 rest ih =>
    intro visible sub ns hmem hn
    rw [stageLoop]
    rcases hn0 : normalizeSubject sub0 with _ | ns0 <;> simp only [hn0]
    · rcases List.mem_cons.mp hmem with rfl | hm
      · rw [hn0] at hn
        exact absurd hn (by simp)
      · exact ih visible sub ns hm hn
    · by_cases hdup : hasGradeFor visible user ns0.course_code sem = true
      · rw [if_pos hdup]
        rcases List.mem_cons.mp hmem with rfl | hm
        · rw [hn0] at hn
          injection hn with hns
          subst hns
          rw [hasGradeFor_append, hdup, Bool.true_or]
        · exact ih visible sub ns hm hn
      · rw [if_neg hdup]
        rcases List.mem_cons.mp hmem with rfl | hm
        · rw [hn0] at hn
          injection hn with hns
          subst hns
          exact hasGradeFor_of_mem
            (List.mem_append_right _ (List.mem_cons_self _ _)) rfl rfl rfl
        · have hih := ih (visible ++ [toGradeRow user sem ns0]) sub ns hm hn
          rw [List.append_cons]
          exact hih

theorem stageLoop_nil_of_covered {user : String} {sem : Int} :
    ∀ (subs : List RawSubject) (visible : List Grade),
      (∀ sub ∈ subs, ∀ ns, normalizeSubject sub = some ns →
        hasGradeFor visible user ns.course_code sem = true) →
      stageLoop user sem visible subs = [] := by
  intro subs
  induction subs with
  | nil => intro _ _; rfl
  | cons sub0 rest ih =>
    intro visible h
    rw [stageLoop]
    rcases hn0 : normalizeSubject sub0 with _ | ns0 <;> simp only [hn0]
    · exact ih visible fun sub hm ns hn => h sub (List.mem_cons_of_mem _ hm) ns hn
    · rw [if_pos (h sub0 (List.mem_cons_self _ _) ns0 hn0)]
      exact ih visible fun sub hm ns hn => h sub (List.mem_cons_of_mem _ hm) ns hn

/-! ## Helper lemmas: the analytics dict fold -/

/-- The contribution of one grade row to its semester accumulator. -/
def singleAcc (g : Grade) : SemAcc :=
  ⟨[toAnalyticsEntry g], g.credits, g.gpa_points * (g.credits : ℚ)⟩

/-- Merging two semester accumulators. -/
def accMerge (a b : SemAcc) : SemAcc :=
  ⟨a.subjects ++ b.subjects, a.credits + b.credits, a.grade_points + b.grade_points⟩

/-- The spec-side accumulator of a whole group of rows. -/
def semContrib (s : Int) (gs : List Grade) : SemAcc :=
  ⟨(specSemGroup gs s).map toAnalyticsEntry,
   specCredits (specSemGroup gs s), specPoints (specSemGroup gs s)⟩

theorem accMerge_empty_left (b : SemAcc) : accMerge ⟨[], 0, 0⟩ b = b := by
  cases b
  simp [accMerge]

theorem accMerge_empty_right (a : SemAcc) : accMerge a ⟨[], 0, 0⟩ = a := by
  cases a
  simp [accMerge]

theorem accMerge_assoc (a b c : SemAcc) :
    accMerge (accMerge a b) c = accMerge a (accMerge b c) := by
  simp [accMerge, List.append_assoc, add_assoc]

theorem addGradeAcc_eq (g : Grade) (a : SemAcc) :
    addGradeAcc g a = accMerge a (singleAcc g) := rfl

theorem semContrib_nil (s : Int) : semContrib s [] = ⟨[], 0, 0⟩ := rfl

theorem semContrib_cons (s : Int) (g : Grade) (gs : List Grade) :
    semContrib s (g :: gs) =
      if g.semester = s then accMerge (singleAcc g) (semContrib s gs)
      else semContrib s gs := by
  by_cases h : g.semester = s <;>
    simp [semContrib, specSemGroup, List.filter_cons, h, specCredits, specPoints,
      accMerge, singleAcc]

theorem lookup_bumpSem (m : List (Int × SemAcc)) (k : Int) (f : SemAcc → SemAcc)
    (s : Int) :
    List.lookup s (bumpSem m k f) =
      if s = k then some (f ((List.lookup s m).getD ⟨[], 0, 0⟩))
      else List.lookup s m := by
  induction m with
  | nil =>
    by_cases h : s = k
    · subst h
      simp [bumpSem, List.lookup]
    · have hbeq : (s == k) = false := by simpa using h
      simp [bumpSem, List.lookup, hbeq, h]
  | cons p m ih =>
    obtain ⟨k', a⟩ := p
    rw [bumpSem]
    by_cases hk : k' = k
    · subst hk
      by_cases hs : s = k'
      · subst hs
        simp [List.lookup]
      · have hbeq : (s == k') = false := by simpa using hs
        simp [List.lookup, hbeq, hs]
    · rw [if_neg (by simpa using hk)]
      by_cases hs : s = k'
      · subst hs
        rw [if_neg (by simpa using hk)]
        simp [List.lookup]
      · have hbeq : (s == k') = false := by simpa using hs
        simp only [List.lookup, hbeq]
        exact ih

theorem keys_bumpSem (m : List (Int × SemAcc)) (k : Int) (f : SemAcc → SemAcc) :
    (bumpSem m k f).map Prod.fst =
      if k ∈ m.map Prod.fst then m.map Prod.fst else m.map Prod.fst ++ [k] := by
  induction m with
  | nil => simp [bumpSem]
  | cons p m ih =>
    obtain ⟨k', a⟩ := p
    rw [bumpSem]
    by_cases hk : k' = k
    · subst hk
      simp
    · rw [if_neg (by simpa using hk)]
      by_cases hm : k ∈ m.map Prod.fst <;>
        simp [hm, ih, Ne.symm hk, hk]

theorem mem_keys_bumpSem (m : List (Int × SemAcc)) (k j : Int) (f : SemAcc → SemAcc) :
    k ∈ (bumpSem m j f).map Prod.fst ↔ k ∈ m.map Prod.fst ∨ k = j := by
  rw [keys_bumpSem]
  split
  · rename_i hj
    constructor
    · exact Or.inl
    · rintro (h | rfl)
      · exact h
      · exact hj
  · simp

/-- The analytics loop step (one grade row into the semester dict). -/
def semStep (m : List (Int × SemAcc)) (g : Grade) : List (Int × SemAcc) :=
  bumpSem m g.semester (addGradeAcc g)

theorem buildSemData_eq_foldl (gs : List Grade) :
    buildSemData gs = gs.foldl semStep [] := rfl

theorem lookup_foldl_semStep (gs : List Grade) :
    ∀ (acc : List (Int × SemAcc)) (s : Int),
      (∀ a, List.lookup s acc = some a →
        List.lookup s (gs.foldl semStep acc) = some (accMerge a (semContrib s gs))) ∧
      (List.lookup s acc = none →
        List.lookup s (gs.foldl semStep acc) =
          if s ∈ gs.map (fun g => g.semester) then some (semContrib s gs) else none) := by
  induction gs with
  | nil =>
    intro acc s
    constructor
    · intro a ha
      rw [List.foldl_nil, ha, semContrib_nil, accMerge_empty_right]
    · intro ha
      rw [List.foldl_nil, ha]
      simp
  | cons g gs ih =>
    intro acc s
    rw [List.foldl_cons]
    have hbump := lookup_bumpSem acc g.semester (addGradeAcc g) s
    by_cases hs : s = g.semester
    · rw [if_pos hs] at hbump
      constructor
      · intro a ha
        rw [ha] at hbump
        simp only [Option.getD_some] at hbump
        have h1 := (ih (semStep acc g) s).1 _ hbump
        rw [h1, semContrib_cons, if_pos hs.symm, addGradeAcc_eq, accMerge_assoc]
      · intro ha
        rw [ha] at hbump
        simp only [Option.getD_none] at hbump
        have h1 := (ih (semStep acc g) s).1 _ hbump
        have hmem2 : s ∈ (g :: gs).map fun x => x.semester := by
          rw [List.map_cons, List.mem_cons]
          exact Or.inl hs
        rw [h1, addGradeAcc_eq, accMerge_empty_left, if_pos hmem2, semContrib_cons,
          if_pos hs.symm]
    · rw [if_neg hs] at hbump
      constructor
      · intro a ha
        rw [ha] at hbump
        have h1 := (ih (semStep acc g) s).1 _ hbump
        rw [h1, semContrib_cons, if_neg fun h => hs h.symm]
      · intro ha
        rw [ha] at hbump
        have h1 := (ih (semStep acc g) s).2 hbump
        rw [h1]
        have hmem : (s ∈ (g :: gs).map fun x => x.semester) ↔
            (s ∈ gs.map fun x => x.semester) := by
          rw [List.map_cons, List.mem_cons]
          constructor
          · rintro (h | h)
            · exact absurd h hs
            · exact h
          · exact Or.inr
        by_cases hin : s ∈ gs.map fun g => g.semester
        · rw [if_pos hin, if_pos (hmem.mpr hin), semContrib_cons,
            if_neg fun h => hs h.symm]
        · rw [if_neg hin, if_neg (fun h => hin (hmem.mp h))]

theorem mem_keys_foldl_semStep (gs : List Grade) :
    ∀ (acc : List (Int × SemAcc)) (k : Int),
      k ∈ (gs.foldl semStep acc).map Prod.fst ↔
        k ∈ acc.map Prod.fst ∨ k ∈ gs.map (fun g => g.semester) := by
  induction gs with
  | nil => intro acc k; simp
  | cons g gs ih =>
    intro acc k
    rw [List.foldl_cons]
    rw [ih (semStep acc g) k]
    rw [show semStep acc g = bumpSem acc g.semester (addGradeAcc g) from rfl]
    rw [mem_keys_bumpSem]
    simp [List.mem_cons]
    tauto

theorem nodup_keys_foldl_semStep (gs : List Grade) :
    ∀ (acc : List (Int × SemAcc)), (acc.map Prod.fst).Nodup →
      ((gs.foldl semStep acc).map Prod.fst).Nodup := by
  induction gs with
  | nil => intro acc h; simpa using h
  | cons g gs ih =>
    intro acc h
    rw [List.foldl_cons]
    apply ih
    rw [show semStep acc g = bumpSem acc g.semester (addGradeAcc g) from rfl]
    rw [keys_bumpSem]
    split
    · exact h
    · rename_i hnin
      simp [List.nodup_append, h, hnin]

theorem foldl_add_sum {M : Type} [AddCommMonoid M] (f : Grade → M) :
    ∀ (l : List Grade) (a : M), l.foldl (fun t g => t + f g) a = a + (l.map f).sum := by
  intro l
  induction l with
  | nil => intro a; simp
  | cons g l ih =>
    intro a
    rw [List.foldl_cons, ih, List.map_cons, List.sum_cons, add_assoc]

theorem loopCredits_eq (gs : List Grade) : loopCredits gs = specCredits gs := by
  unfold loopCredits specCredits
  rw [foldl_add_sum, zero_add]

theorem loopPoints_eq (gs : List Grade) : loopPoints gs = specPoints gs := by
  unfold loopPoints specPoints
  rw [foldl_add_sum, zero_add]

theorem keys_buildSemData_nodup (gs : List Grade) :
    ((buildSemData gs).map Prod.fst).Nodup :=
  nodup_keys_foldl_semStep gs [] (by simp)

theorem mem_keys_buildSemData (gs : List Grade) (k : Int) :
    k ∈ (buildSemData gs).map Prod.fst ↔ k ∈ gs.map (fun g => g.semester) := by
  rw [buildSemData_eq_foldl, mem_keys_foldl_semStep]
  simp

theorem sortInts_keys_buildSemData (gs : List Grade) :
    sortInts ((buildSemData gs).map Prod.fst) = specSemesters gs := by
  unfold specSemesters sortInts
  refine List.eq_of_perm_of_sorted ?_ (List.sorted_insertionSort _ _)
    (List.sorted_insertionSort _ _)
  refine ((List.perm_insertionSort _ _).trans ?_).trans
    (List.perm_insertionSort _ _).symm
  refine (List.perm_ext_iff_of_nodup (keys_buildSemData_nodup gs)
    (List.nodup_dedup _)).mpr ?_
  intro a
  rw [List.mem_dedup, mem_keys_buildSemData]

theorem lookup_buildSemData (gs : List Grade) (s : Int)
    (hmem : s ∈ gs.map fun g => g.semester) :
    (buildSemData gs).lookup s = some (semContrib s gs) := by
  rw [buildSemData_eq_foldl]
  have h := (lookup_foldl_semStep gs [] s).2 (by simp [List.lookup])
  rw [h, if_pos hmem]

theorem length_buildSemData (gs : List Grade) :
    (buildSemData gs).length = (specSemesters gs).length := by
  have h1 : (buildSemData gs).length = ((buildSemData gs).map Prod.fst).length :=
    (List.length_map _ _).symm
  rw [h1, ← sortInts_keys_buildSemData gs]
  unfold sortInts
  exact ((List.perm_insertionSort _ _).length_eq).symm

theorem calculate_user_cgpa_eq_spec (db : DB) (u : String) :
    calculate_user_cgpa db u = computeCGPASpec db u := by
  simp only [calculate_user_cgpa, computeCGPASpec]
  by_cases hempty : (db.grades.filter fun g => g.user_id == u).isEmpty
  · rw [if_pos hempty, if_pos hempty]
  · rw [if_neg hempty, if_neg hempty]
    rw [loopCredits_eq, loopPoints_eq, length_buildSemData, sortInts_keys_buildSemData]
    congr 1
    apply List.map_congr_left
    intro s hs
    have hmem : s ∈ (db.grades.filter fun g => g.user_id == u).map
        fun g => g.semester := by
      rw [specSemesters, sortInts] at hs
      rw [← List.mem_dedup]
      exact (List.perm_insertionSort _ _).mem_iff.mp hs
    rw [lookup_buildSemData _ s hmem]
    simp only [Option.getD_some, semContrib, List.length_map, specSgpa]

/-! ## Claim theorems -/

theorem calc_only_reads_grades (db db' : DB) (u : String)
    (h : db.grades = db'.grades) :
    calculate_user_cgpa db u = calculate_user_cgpa db' u := by
  simp only [calculate_user_cgpa, h]

/-- A sample extraction payload (the spec's end-to-end scenario): two valid
subjects, semester `"3"`. -/
def samplePayload : ExtractedData :=
  { student_info := some ⟨some (.jstr "3")⟩,
    subjects := some (.lst
      [⟨some (.jstr "CSE201"), some (.jstr "Data Structures"), some (.jint 4),
        some (.jstr "A+")⟩,
       ⟨some (.jstr "CSE202"), some (.jstr "Algorithms"), some (.jint 3),
        some (.jstr "A")⟩]),
    semester_summary := true }

/-- C1: for every ingestion run of `store_extracted_grades`, if a storage
failure occurs (the storage fault oracle carries a message), a
`DatabaseError` classified into duplicate/unique-constraint, foreign-key,
check-constraint or other is raised, and the transaction is fully rolled
back: the committed store is returned unchanged, so neither a staged
`Grade` row nor the `GradeUpload` record created at the start of the run
survives the raised error. -/
theorem C1_storage_failure_classified_rollback (db : DB) (u : String)
    (d : ExtractedData) (f msg : String) (hsub : subjectsList d ≠ []) :
    store_extracted_grades (some msg) db u d f =
      (.error (classifyStorageError msg), db) ∧
    (classifyStorageError msg = .duplicateData ∨
     classifyStorageError msg = .foreignKeyViolation ∨
     classifyStorageError msg = .checkConstraintViolation ∨
     classifyStorageError msg = .storageFailed) := by
  constructor
  · have hne : ¬((subjectsList d).isEmpty = true) := fun hh => hsub (List.isEmpty_iff.mp hh)
    simp only [store_extracted_grades]
    rw [if_neg hne]
  · simp only [classifyStorageError]
    split_ifs <;> simp

/-- Witness for C1 at a concrete run: a generic failure message classifies
as a generic storage failure and the store is unchanged. -/
theorem C1_witness :
    store_extracted_grades (some "disk went away") ⟨[], []⟩ "u1" samplePayload "card.png" =
      (.error (classifyStorageError "disk went away"), ⟨[], []⟩) ∧
    (classifyStorageError "disk went away" = .duplicateData ∨
     classifyStorageError "disk went away" = .foreignKeyViolation ∨
     classifyStorageError "disk went away" = .checkConstraintViolation ∨
     classifyStorageError "disk went away" = .storageFailed) :=
  C1_storage_failure_classified_rollback ⟨[], []⟩ "u1" samplePayload "card.png"
    "disk went away" (by decide)

/-- C6: on a non-empty subjects list in which every subject is skipped
(stageLoop stages nothing, whether for duplicates or invalid data),
`store_extracted_grades` sets the `GradeUpload` status to
`all_duplicates`, commits the upload record together with zero `Grade`
rows, and returns a zero-progress result whose duplicate count is the
number of subjects originally presented. -/
theorem C6_all_skipped_commits_upload (db : DB) (u : String) (d : ExtractedData)
    (f : String) (h1 : subjectsList d ≠ [])
    (h2 : stageLoop u (resolveSemester d.student_info) db.grades (subjectsList d) = []) :
    store_extracted_grades none db u d f =
      (.ok { user_id := u, semester := resolveSemester d.student_info,
             subjects_stored := 0, total_credits := 0, calculated_sgpa := 0,
             grades := [], duplicate_count := some (subjectsList d).length,
             status := some "all_duplicates" },
       { grades := db.grades,
         uploads := db.uploads ++ [⟨u, f, "all_duplicates"⟩] }) := by
  have hne : ¬((subjectsList d).isEmpty = true) := fun hh => h1 (List.isEmpty_iff.mp hh)
  simp only [store_extracted_grades, h2]
  rw [if_neg hne]
  simp

/-- The committed store already holding the sample payload's first
subject for semester 3. -/
def preloadedDB : DB :=
  ⟨[⟨"u1", "Data Structures", "CSE201", 4, "A+", 3, 9⟩], []⟩

/-- A payload presenting only the already-stored subject. -/
def duplicatePayload : ExtractedData :=
  { student_info := some ⟨some (.jstr "3")⟩,
    subjects := some (.lst
      [⟨some (.jstr "CSE201"), some (.jstr "Data Structures"), some (.jint 4),
        some (.jstr "A+")⟩]),
    semester_summary := true }

/-- Witness for C6 at a concrete run: re-presenting a stored subject
commits only the `all_duplicates` upload record, with duplicate count 1. -/
theorem C6_witness :
    store_extracted_grades none preloadedDB "u1" duplicatePayload "again.png" =
      (.ok { user_id := "u1", semester := 3, subjects_stored := 0,
             total_credits := 0, calculated_sgpa := 0, grades := [],
             duplicate_count := some 1, status := some "all_duplicates" },
       { grades := preloadedDB.grades,
         uploads := [⟨"u1", "again.png", "all_duplicates"⟩] }) :=
  C6_all_skipped_commits_upload preloadedDB "u1" duplicatePayload "again.png"
    (by decide) (by decide)

/-- C7: `get_grade_points` is a pure total function on strings: each known
letter grade returns its fixed table value (O=10, A+=9, A=8, B+=7, B=6,
C=5, D=4, F=0, U=0, AB=0), and every letter whose (upper-cased) form the
table does not recognise returns 0.0. -/
theorem C7_grade_points_total :
    get_grade_points "O" = 10 ∧ get_grade_points "A+" = 9 ∧
    get_grade_points "A" = 8 ∧ get_grade_points "B+" = 7 ∧
    get_grade_points "B" = 6 ∧ get_grade_points "C" = 5 ∧
    get_grade_points "D" = 4 ∧ get_grade_points "F" = 0 ∧
    get_grade_points "U" = 0 ∧ get_grade_points "AB" = 0 ∧
    (∀ s : String, GRADE_POINTS_MAP.lookup (pyUpper s) = none →
      get_grade_points s = 0) := by
  refine ⟨by decide, by decide, by decide, by decide, by decide, by decide,
    by decide, by decide, by decide, by decide, fun s h => ?_⟩
  unfold get_grade_points
  rw [h]
  rfl

/-- Witness for C7 at a concrete unrecognised letter. -/
theorem C7_witness : get_grade_points "ZZ" = 0 :=
  C7_grade_points_total.2.2.2.2.2.2.2.2.2.2 "ZZ" (by decide)

/-- C9: `sharpen_image` never raises to its caller: whenever the internal
PIL chain fails at any stage (the chain yields `none`), the original
input bytes are returned unchanged.  (Totality on every input is the
return type itself.) -/
theorem C9_sharpen_falls_back {Img : Type} (openImage : List Nat → Option Img)
    (ensureRGB : Img → Option Img) (sharpness : Img → Option Img)
    (contrast : Img → Option Img) (encodeJPEG : Img → Option (List Nat))
    (b : List Nat)
    (h : sharpenChain openImage ensureRGB sharpness contrast encodeJPEG b = none) :
    sharpen_image openImage ensureRGB sharpness contrast encodeJPEG b = b := by
  unfold sharpen_image
  rw [h]

/-- Witness for C9: a chain whose open stage fails (corrupt image) returns
the input bytes unchanged. -/
theorem C9_witness :
    sharpen_image (fun _ => (none : Option Unit)) (fun _ => some ())
      (fun _ => some ()) (fun _ => some ()) (fun _ => some [0]) [7, 8, 9] =
      [7, 8, 9] :=
  C9_sharpen_falls_back (fun _ => (none : Option Unit)) (fun _ => some ())
    (fun _ => some ()) (fun _ => some ()) (fun _ => some [0]) [7, 8, 9] rfl


/-- The two-semester arithmetic example from the spec: semester 1 carries
10 credits with 85 weighted points, semester 2 carries 8 credits with 64
weighted points, so CGPA = 149/18 ≈ 8.28. -/
def cgpaExampleDB : DB :=
  ⟨[⟨"stu", "Calculus", "MA101", 4, "A", 1, 85/10⟩,
    ⟨"stu", "Mechanics", "PH101", 6, "A", 1, 85/10⟩,
    ⟨"stu", "Chemistry", "CH201", 3, "A", 2, 8⟩,
    ⟨"stu", "Biology", "BI201", 5, "A", 2, 8⟩], []⟩

/-- C2: `calculate_user_cgpa` computes exactly the spec-side
`computeCGPASpec` for every owner — it groups the owner's rows by
semester, computes each group's sgpa as Σ(grade_points·credits)/Σ(credits)
with a 0.0 guard rounded to 2 decimals, lists the groups in ascending
semester order, and computes the overall cgpa as the credit-weighted mean
over all rows rounded to 2 decimals.  The 10-credit/85-point plus
8-credit/64-point example yields 8.28, and an owner with no grades gets
the all-zero summary with an empty semester list, not an error. -/
theorem ratFloor_eq_floor (q : ℚ) : q.floor = ⌊q⌋ := rfl

theorem C2_computeCGPA_correct :
    (∀ (db : DB) (owner_id : String),
      calculate_user_cgpa db owner_id = computeCGPASpec db owner_id) ∧
    (calculate_user_cgpa cgpaExampleDB "stu").cgpa = 828/100 ∧
    calculate_user_cgpa ⟨[], [⟨"stu", "old.png", "completed"⟩]⟩ "stu" =
      ⟨"stu", 0, 0, 0, 0, []⟩ := by
  refine ⟨calculate_user_cgpa_eq_spec, ?_, by decide⟩
  have hfl : ((7450 : ℚ)/9).floor = 827 := by
    rw [ratFloor_eq_floor, Int.floor_eq_iff]
    norm_num
  simp only [calculate_user_cgpa, cgpaExampleDB]
  norm_num [List.filter, loopCredits, loopPoints, List.foldl, pyRound2,
    roundHalfEven, hfl]

/-- C4 counterexample: the claim predicts that a subject whose normalized
(trimmed, upper-cased) grade is empty is skipped; for the raw grade `""`
the trimmed upper-cased form is empty, yet the code substitutes the
default `"F"` (the raw value is falsy) and stages the subject. -/
theorem C4_counterexample :
    pyUpper (pyStrip "") = "" ∧
    normalizeSubject ⟨some (.jstr "CS101"), some (.jstr "Programming"),
        some (.jint 4), some (.jstr "")⟩ =
      some ⟨"CS101", "Programming", 4, "F", 0⟩ :=
  ⟨by decide, by decide⟩

/-- C4 (amended): the normalizer trims `subject_code`/`subject_name` and
skips the subject (continuing with the rest) when either is empty after
trimming; the raw grade is first replaced by the default `"F"` when it is
falsy (the empty string), and otherwise normalized to trimmed upper-case;
the subject is skipped when that effective grade is empty (possible only
for a whitespace-only raw grade) or equals the literal `"NONE"`.  Skipped
subjects are never staged by the subject loop and no error is raised for
them. -/
theorem C4_normalizer_amended :
    (∀ (c n g : String) (cr : Option JVal),
      normalizeSubject ⟨some (.jstr c), some (.jstr n), cr, some (.jstr g)⟩ =
        (if pyStrip c = "" ∨ pyStrip n = "" then none
         else if (if g = "" then "F" else pyUpper (pyStrip g)) = "" ∨
             (if g = "" then "F" else pyUpper (pyStrip g)) = "NONE" then none
         else some ⟨pyStrip c, pyStrip n, coerceCredits cr,
           (if g = "" then "F" else pyUpper (pyStrip g)),
           get_grade_points (if g = "" then "F" else pyUpper (pyStrip g))⟩)) ∧
    (∀ (user : String) (sem : Int) (visible : List Grade) (sub : RawSubject)
      (rest : List RawSubject), normalizeSubject sub = none →
      stageLoop user sem visible (sub :: rest) = stageLoop user sem visible rest) := by
  constructor
  · intro c n g cr
    simp only [normalizeSubject, Option.getD_some, pyStrVal, JVal.truthy]
    by_cases hg : g = ""
    · subst hg
      simp only [beq_self_eq_true, Bool.not_true, Bool.false_eq_true, if_false,
        Bool.or_eq_true, beq_iff_eq]
      simp
    · have ht : (!(g == "")) = true := by simpa using hg
      simp only [ht, if_true, Option.map_some', Bool.or_eq_true, beq_iff_eq, hg]
      rfl
  · intro user sem visible sub rest h
    rw [stageLoop]
    simp only [h]

/-- Witness for C4 (amended) at concrete inputs: a padded lower-case
grade is trimmed and upper-cased and the subject staged; a subject with
an empty code is skipped and stages nothing. -/
theorem C4_witness :
    normalizeSubject ⟨some (.jstr " CS50 "), some (.jstr " Intro "),
        some (.jint 4), some (.jstr " a+ ")⟩ =
      some ⟨"CS50", "Intro", 4, "A+", 9⟩ ∧
    stageLoop "u1" 1 []
        [⟨some (.jstr ""), some (.jstr "X"), some (.jint 3), some (.jstr "A")⟩] =
      stageLoop "u1" 1 [] [] :=
  ⟨(C4_normalizer_amended.1 " CS50 " " Intro " " a+ " (some (.jint 4))).trans
      (by decide),
   C4_normalizer_amended.2 "u1" 1 []
     ⟨some (.jstr ""), some (.jstr "X"), some (.jint 3), some (.jstr "A")⟩ []
     (by decide)⟩

/-- C5: the credits coercion substitutes the default 3 when the value is
missing, null, falsy, a non-numeric string, or an integer outside [1, 6]
(so 0 and 9 both normalize to 3), never raising; an in-range integer is
kept.  The run's semester defaults to 1 when `student_info.semester` is
absent, null, a non-digit string, or a float, and is reset to 1 when the
parsed integer lies outside [1, 12] (so 0 and 15 both normalize to 1). -/
theorem C5_boundary_defaults :
    (coerceCredits none = 3 ∧ coerceCredits (some .jnull) = 3) ∧
    (coerceCredits (some (.jint 0)) = 3 ∧ coerceCredits (some (.jint 9)) = 3) ∧
    (∀ n : Int, n < 1 ∨ 6 < n → coerceCredits (some (.jint n)) = 3) ∧
    (∀ s : String, pyIntOfString s = none → coerceCredits (some (.jstr s)) = 3) ∧
    (∀ n : Int, 1 ≤ n ∧ n ≤ 6 → coerceCredits (some (.jint n)) = n) ∧
    (resolveSemester none = 1 ∧ resolveSemester (some ⟨none⟩) = 1) ∧
    (resolveSemester (some ⟨some (.jint 0)⟩) = 1 ∧
     resolveSemester (some ⟨some (.jint 15)⟩) = 1) ∧
    (∀ n : Int, n < 1 ∨ 12 < n → resolveSemester (some ⟨some (.jint n)⟩) = 1) ∧
    (∀ s : String, pyIsDigit s = false → resolveSemester (some ⟨some (.jstr s)⟩) = 1) ∧
    (∀ q : ℚ, resolveSemester (some ⟨some (.jnum q)⟩) = 1) ∧
    resolveSemester (some ⟨some .jnull⟩) = 1 := by
  refine ⟨⟨by decide, by decide⟩, ⟨by decide, by decide⟩, ?_, ?_, ?_,
    ⟨by decide, by decide⟩, ⟨by decide, by decide⟩, ?_, ?_, ?_, by decide⟩
  · intro n hn
    by_cases h0 : n = 0
    · subst h0
      decide
    · simp only [coerceCredits, Option.getD_some, JVal.truthy, pyIntOfVal]
      simp [h0]
      omega
  · intro s h
    by_cases h0 : s = ""
    · subst h0
      decide
    · simp [coerceCredits, JVal.truthy, pyIntOfVal, h0, h]
  · intro n hn
    have h0 : ¬(n = 0) := by omega
    simp [coerceCredits, JVal.truthy, pyIntOfVal, h0]
    omega
  · intro n hn
    by_cases h0 : n = 0
    · subst h0
      decide
    · by_cases hnn : 0 ≤ n
      · have h12 : 12 < n := by omega
        simp [resolveSemester, JVal.truthy, jvalDigitInt, h0, hnn]
        omega
      · simp [resolveSemester, JVal.truthy, jvalDigitInt, h0, hnn]
  · intro s h
    by_cases h0 : s = ""
    · subst h0
      decide
    · simp [resolveSemester, JVal.truthy, jvalDigitInt, h0, h]
  · intro q
    by_cases hq : q = 0
    · subst hq
      decide
    · simp [resolveSemester, JVal.truthy, jvalDigitInt, hq]

/-- Witness for C5 at concrete boundary inputs. -/
theorem C5_witness :
    coerceCredits (some (.jint 9)) = 3 ∧ coerceCredits (some (.jstr "four")) = 3 ∧
    coerceCredits (some (.jint 4)) = 4 ∧
    resolveSemester (some ⟨some (.jint 15)⟩) = 1 ∧
    resolveSemester (some ⟨some (.jstr "3.5")⟩) = 1 ∧
    resolveSemester (some ⟨some (.jnum (7/2))⟩) = 1 :=
  ⟨C5_boundary_defaults.2.2.1 9 (Or.inr (by norm_num)),
   C5_boundary_defaults.2.2.2.1 "four" (by decide),
   C5_boundary_defaults.2.2.2.2.1 4 (by norm_num),
   C5_boundary_defaults.2.2.2.2.2.2.2.1 15 (Or.inr (by norm_num)),
   C5_boundary_defaults.2.2.2.2.2.2.2.2.1 "3.5" (by decide),
   C5_boundary_defaults.2.2.2.2.2.2.2.2.2.1 (7/2)⟩

/-- The schema shape required by the spec (section 4.4), written from the
spec's words: top-level keys `student_info`, `subjects`,
`semester_summary` all present, `subjects` a non-empty list, every
subject carrying `subject_code`, `subject_name`, `credits`, `grade`, and
`credits` numeric. -/
def specValidShape (d : ExtractedData) : Prop :=
  d.student_info.isSome = true ∧ d.semester_summary = true ∧
  ∃ l, d.subjects = some (.lst l) ∧ l ≠ [] ∧
    ∀ s ∈ l, (s.subject_code.isSome = true ∧ s.subject_name.isSome = true ∧
      s.credits.isSome = true ∧ s.grade.isSome = true) ∧
      ((∃ n : Int, s.credits = some (.jint n)) ∨
       (∃ q : ℚ, s.credits = some (.jnum q)))

theorem subjectShapeOk_iff (s : RawSubject) :
    subjectShapeOk s = true ↔
      ((s.subject_code.isSome = true ∧ s.subject_name.isSome = true ∧
        s.credits.isSome = true ∧ s.grade.isSome = true) ∧
       ((∃ n : Int, s.credits = some (.jint n)) ∨
        (∃ q : ℚ, s.credits = some (.jnum q)))) := by
  unfold subjectShapeOk
  rcases hc : s.credits with _ | v
  · simp [hc]
  · cases v <;> simp [hc, and_assoc]

/-- C8: the schema validator returns true exactly when the extraction
payload has the required shape (three top-level keys present, `subjects`
a non-empty list, each subject with the four required keys and numeric
credits); and whenever it returns false — for example when the
`subjects` key is missing — the controller returns a `processing_failed`
response at once, `store_extracted_grades` is never invoked, and the
committed store is unchanged: no `GradeUpload` or `Grade` row exists
afterward for that attempt. -/
theorem C8_validator_gates_pipeline :
    (∀ d : ExtractedData, validate_extracted_grades d = true ↔ specValidShape d) ∧
    (∀ (cf : Option String) (db : DB) (u : String) (d : ExtractedData)
      (f : String), validate_extracted_grades d = false →
      process_result_card_after_extraction cf db u d f =
        (.processing_failed, db)) := by
  constructor
  · intro d
    unfold validate_extracted_grades specValidShape
    rcases hs : d.subjects with _ | sv
    · simp [hs]
    · cases sv with
      | lst l =>
        simp [hs, List.all_eq_true, subjectShapeOk_iff, List.isEmpty_iff,
          and_assoc]
      | nonList => simp [hs]
  · intro cf db u d f h
    simp only [process_result_card_after_extraction, h]
    rfl

/-- Witness for C8: a payload whose `subjects` key is missing fails
validation and leaves the store untouched. -/
theorem C8_witness :
    process_result_card_after_extraction none ⟨[], []⟩ "u1"
        ⟨some ⟨some (.jstr "3")⟩, none, true⟩ "card.png" =
      (.processing_failed, ⟨[], []⟩) :=
  C8_validator_gates_pipeline.2 none ⟨[], []⟩ "u1"
    ⟨some ⟨some (.jstr "3")⟩, none, true⟩ "card.png" (by decide)

/-- The invariant claimed for every staged `Grade` row: credits in
[1, 6], semester in [1, 12], a non-empty trimmed upper-case grade
string, and grade points drawn from the grade-point table (hence within
[0, 10]). -/
def GradeInvariant (g : Grade) : Prop :=
  1 ≤ g.credits ∧ g.credits ≤ 6 ∧ 1 ≤ g.semester ∧ g.semester ≤ 12 ∧
  g.grade ≠ "" ∧ pyStrip g.grade = g.grade ∧ pyUpper g.grade = g.grade ∧
  g.gpa_points ∈ GRADE_POINTS_MAP.map Prod.snd ∧
  0 ≤ g.gpa_points ∧ g.gpa_points ≤ 10

theorem stageLoop_invariant {user : String} {sem : Int} (h1 : 1 ≤ sem)
    (h2 : sem ≤ 12) (subs : List RawSubject) (visible : List Grade) (g : Grade)
    (hg : g ∈ stageLoop user sem visible subs) : GradeInvariant g := by
  obtain ⟨sub, hsub, ns, hns, rfl⟩ := stageLoop_mem subs visible g hg
  obtain ⟨hne, hnone, hcr, hgp, hfix1, hfix2⟩ := normalizeSubject_some hns
  obtain ⟨hc1, hc2⟩ := coerceCredits_range sub.credits
  refine ⟨?_, ?_, h1, h2, hne, hfix1, hfix2, ?_, ?_, ?_⟩
  · show 1 ≤ ns.credits
    rw [hcr]
    exact hc1
  · show ns.credits ≤ 6
    rw [hcr]
    exact hc2
  · show ns.grade_points ∈ GRADE_POINTS_MAP.map Prod.snd
    rw [hgp]
    exact get_grade_points_mem _
  · show (0 : ℚ) ≤ ns.grade_points
    rw [hgp]
    exact (get_grade_points_bounds _).1
  · show ns.grade_points ≤ 10
    rw [hgp]
    exact (get_grade_points_bounds _).2

/-- C10: every `Grade` row a successful `store_extracted_grades` run adds
to the committed store satisfies the invariant — credits in [1, 6],
semester in [1, 12], a non-empty trimmed upper-case grade string, and
grade points drawn from the grade-point table (hence in [0, 10]); the
aggregation operations are pure reads of the grade rows, so the
invariant is preserved by every core operation. -/
theorem C10_staged_rows_invariant (db : DB) (u : String) (d : ExtractedData)
    (f : String) (r : StoreResult) (db' : DB)
    (h : store_extracted_grades none db u d f = (.ok r, db')) :
    ∀ g ∈ db'.grades, g ∈ db.grades ∨ GradeInvariant g := by
  simp only [store_extracted_grades] at h
  by_cases hemp : (subjectsList d).isEmpty = true
  · rw [if_pos hemp] at h
    exact absurd h (by simp)
  · rw [if_neg hemp] at h
    by_cases hstg : (stageLoop u (resolveSemester d.student_info) db.grades
        (subjectsList d)).isEmpty = true
    · rw [if_pos hstg] at h
      rw [Prod.mk.injEq] at h
      obtain ⟨h1, h2⟩ := h
      intro g hg
      rw [← h2] at hg
      exact Or.inl hg
    · rw [if_neg hstg] at h
      rw [Prod.mk.injEq] at h
      obtain ⟨h1, h2⟩ := h
      intro g hg
      rw [← h2] at hg
      rcases List.mem_append.mp hg with hmem | hmem
      · exact Or.inl hmem
      · exact Or.inr (stageLoop_invariant (resolveSemester_range _).1
          (resolveSemester_range _).2 _ _ g hmem)

/-- Witness for C10: the first row staged by the sample run out of an
empty store satisfies the invariant. -/
theorem C10_witness :
    (⟨"u1", "Data Structures", "CSE201", 4, "A+", 3, 9⟩ : Grade) ∈
        ([] : List Grade) ∨
      GradeInvariant ⟨"u1", "Data Structures", "CSE201", 4, "A+", 3, 9⟩ := by
  have heq : store_extracted_grades none ⟨[], []⟩ "u1" samplePayload "card.png" =
      (.ok { user_id := "u1", semester := 3, subjects_stored := 2,
             total_credits := 7, calculated_sgpa := pyRound2 (60/7),
             grades := [⟨"CSE201", "Data Structures", 4, "A+", 9⟩,
                        ⟨"CSE202", "Algorithms", 3, "A", 8⟩],
             duplicate_count := none, status := none },
       ⟨[⟨"u1", "Data Structures", "CSE201", 4, "A+", 3, 9⟩,
         ⟨"u1", "Algorithms", "CSE202", 3, "A", 3, 8⟩],
        [⟨"u1", "card.png", "completed"⟩]⟩) := by
    have hsem : resolveSemester (some ⟨some (.jstr "3")⟩) = 3 := by decide
    have hstage : stageLoop "u1" 3 []
        [⟨some (.jstr "CSE201"), some (.jstr "Data Structures"), some (.jint 4),
          some (.jstr "A+")⟩,
         ⟨some (.jstr "CSE202"), some (.jstr "Algorithms"), some (.jint 3),
          some (.jstr "A")⟩] =
        [⟨"u1", "Data Structures", "CSE201", 4, "A+", 3, 9⟩,
         ⟨"u1", "Algorithms", "CSE202", 3, "A", 3, 8⟩] := by decide
    simp only [store_extracted_grades, subjectsList, samplePayload, hsem]
    norm_num [hstage, stagedCredits, stagedPoints, toSubjectEntry]
  exact C10_staged_rows_invariant ⟨[], []⟩ "u1" samplePayload "card.png" _ _ heq
    ⟨"u1", "Data Structures", "CSE201", 4, "A+", 3, 9⟩ (by simp)

/-- C3: running `store_extracted_grades` a second time with an identical
payload for the same owner (and hence the same resolved semester) stages
zero new `Grade` rows, finishes with status `all_duplicates`, and leaves
the owner's computed CGPA unchanged relative to its value after the
first run: every subject that normalizes is already present under its
`(owner, course_code, semester)` key, and every other subject is
skipped again. -/
theorem C3_second_run_idempotent (db : DB) (u f1 f2 : String)
    (d : ExtractedData) (r1 : StoreResult) (db1 : DB)
    (h : store_extracted_grades none db u d f1 = (.ok r1, db1)) :
    ∃ r2 db2, store_extracted_grades none db1 u d f2 = (.ok r2, db2) ∧
      r2.subjects_stored = 0 ∧ r2.status = some "all_duplicates" ∧
      r2.duplicate_count = some (subjectsList d).length ∧
      db2.grades = db1.grades ∧
      calculate_user_cgpa db2 u = calculate_user_cgpa db1 u := by
  simp only [store_extracted_grades] at h
  by_cases hemp : (subjectsList d).isEmpty = true
  · rw [if_pos hemp] at h
    exact absurd h (by simp)
  rw [if_neg hemp] at h
  set sem := resolveSemester d.student_info with hsem
  set staged := stageLoop u sem db.grades (subjectsList d) with hstaged
  have hdb1 : db1.grades = db.grades ++ staged := by
    by_cases hstg : staged.isEmpty = true
    · rw [if_pos hstg] at h
      rw [Prod.mk.injEq] at h
      rw [← h.2, List.isEmpty_iff.mp hstg, List.append_nil]
    · rw [if_neg hstg] at h
      rw [Prod.mk.injEq] at h
      rw [← h.2]
  have hcov : ∀ sub ∈ subjectsList d, ∀ ns, normalizeSubject sub = some ns →
      hasGradeFor db1.grades u ns.course_code sem = true := by
    intro sub hmem ns hns
    rw [hdb1, hstaged]
    exact stageLoop_covers (subjectsList d) db.grades sub ns hmem hns
  have hstage2 : stageLoop u sem db1.grades (subjectsList d) = [] :=
    stageLoop_nil_of_covered (subjectsList d) db1.grades hcov
  refine ⟨{ user_id := u, semester := sem, subjects_stored := 0,
            total_credits := 0, calculated_sgpa := 0, grades := [],
            duplicate_count := some (subjectsList d).length,
            status := some "all_duplicates" },
          { grades := db1.grades,
            uploads := db1.uploads ++ [⟨u, f2, "all_duplicates"⟩] },
          ?_, rfl, rfl, rfl, rfl, ?_⟩
  · simp only [store_extracted_grades]
    rw [← hsem, hstage2, if_neg hemp]
    simp
  · exact calc_only_reads_grades _ _ u rfl

/-- Witness for C3: after the sample payload is ingested into an empty
store, a second run with the identical payload is an `all_duplicates`
no-op that leaves the grade rows and the CGPA unchanged. -/
theorem C3_witness :
    ∃ r2 db2, store_extracted_grades none
        ⟨[⟨"u1", "Data Structures", "CSE201", 4, "A+", 3, 9⟩,
          ⟨"u1", "Algorithms", "CSE202", 3, "A", 3, 8⟩],
         [⟨"u1", "card.png", "completed"⟩]⟩ "u1" samplePayload "again.png" =
        (.ok r2, db2) ∧
      r2.subjects_stored = 0 ∧ r2.status = some "all_duplicates" ∧
      r2.duplicate_count = some (subjectsList samplePayload).length ∧
      db2.grades = (⟨[⟨"u1", "Data Structures", "CSE201", 4, "A+", 3, 9⟩,
          ⟨"u1", "Algorithms", "CSE202", 3, "A", 3, 8⟩],
         [⟨"u1", "card.png", "completed"⟩]⟩ : DB).grades ∧
      calculate_user_cgpa db2 "u1" =
        calculate_user_cgpa ⟨[⟨"u1", "Data Structures", "CSE201", 4, "A+", 3, 9⟩,
          ⟨"u1", "Algorithms", "CSE202", 3, "A", 3, 8⟩],
         [⟨"u1", "card.png", "completed"⟩]⟩ "u1" := by
  have heq : store_extracted_grades none ⟨[], []⟩ "u1" samplePayload "card.png" =
      (.ok { user_id := "u1", semester := 3, subjects_stored := 2,
             total_credits := 7, calculated_sgpa := pyRound2 (60/7),
             grades := [⟨"CSE201", "Data Structures", 4, "A+", 9⟩,
                        ⟨"CSE202", "Algorithms", 3, "A", 8⟩],
             duplicate_count := none, status := none },
       ⟨[⟨"u1", "Data Structures", "CSE201", 4, "A+", 3, 9⟩,
         ⟨"u1", "Algorithms", "CSE202", 3, "A", 3, 8⟩],
        [⟨"u1", "card.png", "completed"⟩]⟩) := by
    have hsem : resolveSemester (some ⟨some (.jstr "3")⟩) = 3 := by decide
    have hstage : stageLoop "u1" 3 []
        [⟨some (.jstr "CSE201"), some (.jstr "Data Structures"), some (.jint 4),
          some (.jstr "A+")⟩,
         ⟨some (.jstr "CSE202"), some (.jstr "Algorithms"), some (.jint 3),
          some (.jstr "A")⟩] =
        [⟨"u1", "Data Structures", "CSE201", 4, "A+", 3, 9⟩,
         ⟨"u1", "Algorithms", "CSE202", 3, "A", 3, 8⟩] := by decide
    simp only [store_extracted_grades, subjectsList, samplePayload, hsem]
    norm_num [hstage, stagedCredits, stagedPoints, toSubjectEntry]
  exact C3_second_run_idempotent ⟨[], []⟩ "u1" "card.png" "again.png"
    samplePayload _ _ heq
